import Mathlib

/-! go-todo-api: the todo store and its request handlers

A shallow embedding of `models/todo.go` (the `TodoModel` store) and
`handlers/todo.go` (the gin handlers), together with a small model of the
pieces they call into: the `todos` table of `database/sqlite.go` as SQLite
executes the six SQL statements of the store, `strconv.Atoi`, and gin's
`ShouldBindJSON` with the `binding:"required"` tag.

Conventions.

* A `time.Time` value is an instant together with the UTC offset of its
  location; `<`, `≤` compare instants, as `Before`/`After` do.  Every call
  of `time.Now()` is a parameter `now` of the operation that makes it.
* A Go method that mutates the database and returns `(*Todo, error)` becomes a
  function returning the new database paired with an `Except Error Todo`;
  the `nil` todo that accompanies a non-`nil` error is the `.error` case.
* Every SQL statement takes a parameter `fault : Option String`: `none` when
  the driver executes the statement, `some msg` when it fails with a storage
  fault (closed connection, I/O error).  A failed statement changes nothing.
-/

namespace TodoApi

/-! ## Data model (`models/todo.go`) -/

/-- A `time.Time` value as read from `time.Now()`: the instant, and the UTC
offset in effect at that instant in the location of the value (the local zone
for `time.Now()`), counted in the same unit as instants.  The SQLite driver
writes it into a `DATETIME` column as the text
`2006-01-02 15:04:05.999999999-07:00` (local wall clock, then the offset) and
parses that text back on `Scan`, which restores both components. -/
structure Time where
  instant : Nat
  offset : Int
  deriving DecidableEq, Repr

/-- A numeral denotes that instant read in UTC. -/
instance (n : Nat) : OfNat Time n := ⟨⟨n, 0⟩⟩

/-- Times are compared by instant, as `Before`, `After` and `Equal` do. -/
instance : LE Time := ⟨fun a b => a.instant ≤ b.instant⟩

instance : LT Time := ⟨fun a b => a.instant < b.instant⟩

instance : DecidableRel (fun a b : Time => a ≤ b) :=
  fun a b => inferInstanceAs (Decidable (a.instant ≤ b.instant))

instance : DecidableRel (fun a b : Time => a < b) :=
  fun a b => inferInstanceAs (Decidable (a.instant < b.instant))

instance : Preorder Time where
  le_refl a := Nat.le_refl a.instant
  le_trans _ _ _ hab hbc := Nat.le_trans hab hbc
  lt_iff_le_not_le _ _ := Nat.lt_iff_le_not_le

/-- The local wall-clock reading the stored text starts with. -/
def Time.wall (t : Time) : Int := (t.instant : Int) + t.offset

/-- Order of the offset suffixes `+hh:mm` and `-hh:mm` compared as text: `+`
sorts before `-`, and within one sign the larger magnitude sorts later. -/
def offsetTextLE (o1 o2 : Int) : Prop :=
  (0 ≤ o1 ∧ o2 < 0) ∨ (0 ≤ o1 ∧ 0 ≤ o2 ∧ o1 ≤ o2) ∨ (o1 < 0 ∧ o2 < 0 ∧ o2 ≤ o1)

instance : DecidableRel offsetTextLE :=
  fun o1 o2 => inferInstanceAs (Decidable
    ((0 ≤ o1 ∧ o2 < 0) ∨ (0 ≤ o1 ∧ 0 ≤ o2 ∧ o1 ≤ o2) ∨ (o1 < 0 ∧ o2 < 0 ∧ o2 ≤ o1)))

/-- Order of two stored timestamp texts under SQLite's text comparison: the
fixed-width wall clock with its fraction decides (the characters `+` and `-`
that end a fraction sort below `.` and the digits), then the offset suffix. -/
def Time.textLE (a b : Time) : Prop :=
  a.wall < b.wall ∨ (a.wall = b.wall ∧ offsetTextLE a.offset b.offset)

instance : DecidableRel Time.textLE :=
  fun a b => inferInstanceAs (Decidable
    (a.wall < b.wall ∨ (a.wall = b.wall ∧ offsetTextLE a.offset b.offset)))

/-- The `Todo` struct; also one row of the `todos` table, whose columns are
exactly these six fields. -/
structure Todo where
  ID : Int
  Title : String
  Description : String
  Completed : Bool
  CreatedAt : Time
  UpdatedAt : Time
  deriving DecidableEq, Repr

/-- The `CreateTodoRequest` struct. -/
structure CreateTodoRequest where
  Title : String
  Description : String
  deriving DecidableEq, Repr

/-- The `UpdateTodoRequest` struct. -/
structure UpdateTodoRequest where
  Title : String
  Description : String
  deriving DecidableEq, Repr

/-- Errors a store method can return: `sql.ErrNoRows`, or a fault reported by
the driver. -/
inductive Error where
  | ErrNoRows
  | driver (msg : String)
  deriving DecidableEq, Repr

/-- A Go slice value: the `nil` slice, or a slice over a sequence of elements.
`append` on either yields a non-`nil` slice. -/
inductive Slice (α : Type) where
  | nil
  | elems (xs : List α)
  deriving DecidableEq, Repr

/-- The elements of a slice, in order (`nil` has none). -/
def Slice.toList {α : Type} : Slice α → List α
  | .nil => []
  | .elems xs => xs

/-- Go's `append(s, x)`. -/
def Slice.append {α : Type} (s : Slice α) (x : α) : Slice α :=
  .elems (s.toList ++ [x])

/-- Go's `len(s)`. -/
def Slice.len {α : Type} (s : Slice α) : Nat := s.toList.length

/-! ## The database behind `*sql.DB` (`database/sqlite.go`)

The table `todos` created by `createTodosTable`, with
`id INTEGER PRIMARY KEY AUTOINCREMENT`.  SQLite keeps, for an `AUTOINCREMENT`
table, the largest rowid ever issued in `sqlite_sequence`. -/

/-- State of the database: the rows of `todos` in rowid order of insertion and
the `sqlite_sequence` counter of the table. -/
structure DB where
  rows : List Todo
  seq : Nat
  deriving DecidableEq, Repr

/-- The database right after `InitDB` on a fresh file. -/
def emptyDB : DB := ⟨[], 0⟩

/-- Largest rowid SQLite can issue (`2^63 - 1`). -/
def maxRowid : Nat := 9223372036854775807

/-- High-water mark used by `AUTOINCREMENT`: the larger of the
`sqlite_sequence` counter and the largest rowid currently in the table. -/
def DB.highWater (db : DB) : Nat :=
  db.rows.foldl (fun m r => max m r.ID.toNat) db.seq

/-- Lift a driver fault to the error the `database/sql` call returns. -/
def faultError (msg : String) : Error := .driver msg

/-- `INSERT INTO todos (title, description, completed, created_at, updated_at)
VALUES (?, ?, ?, ?, ?)`: the row gets the rowid one above the high-water mark,
the counter moves to it; returns the new database and `LastInsertId()`.
Fails with `SQLITE_FULL` when the largest rowid has been issued. -/
def execInsert (db : DB) (fault : Option String) (title description : String)
    (completed : Bool) (createdAt updatedAt : Time) : Except Error (DB × Int) :=
  match fault with
  | some msg => .error (faultError msg)
  | none =>
    if db.highWater ≥ maxRowid then .error (.driver "database or disk is full")
    else
      let id : Nat := db.highWater + 1
      .ok (⟨db.rows ++ [⟨id, title, description, completed, createdAt, updatedAt⟩], id⟩, id)

/-- `SELECT id, title, description, completed, created_at, updated_at FROM
todos WHERE id = ?` through `QueryRow(...).Scan(...)`: the first matching row,
`sql.ErrNoRows` when there is none. -/
def queryRowByID (db : DB) (fault : Option String) (id : Int) : Except Error Todo :=
  match fault with
  | some msg => .error (faultError msg)
  | none =>
    match db.rows.find? (fun r => r.ID = id) with
    | none => .error .ErrNoRows
    | some r => .ok r

/-- Ordering of `ORDER BY created_at DESC`: `a` may precede `b`.  The column
holds the text the driver wrote, so SQLite compares the texts. -/
def createdDesc (a b : Todo) : Prop := b.CreatedAt.textLE a.CreatedAt

instance : DecidableRel createdDesc :=
  fun a b => inferInstanceAs (Decidable (b.CreatedAt.textLE a.CreatedAt))

instance : IsTotal Todo createdDesc :=
  ⟨fun a b => by unfold createdDesc Time.textLE offsetTextLE; omega⟩

instance : IsTrans Todo createdDesc :=
  ⟨fun a b c hab hbc => by unfold createdDesc Time.textLE offsetTextLE at *; omega⟩

/-- `SELECT id, title, description, completed, created_at, updated_at FROM
todos ORDER BY created_at DESC` through `Query`: the rows the cursor will
yield. -/
def queryAll (db : DB) (fault : Option String) : Except Error (List Todo) :=
  match fault with
  | some msg => .error (faultError msg)
  | none => .ok (db.rows.insertionSort createdDesc)

/-- `UPDATE todos SET title = ?, description = ?, updated_at = ? WHERE id = ?`.
Zero matching rows is not an error. -/
def execUpdate (db : DB) (fault : Option String) (title description : String)
    (updatedAt : Time) (id : Int) : Except Error DB :=
  match fault with
  | some msg => .error (faultError msg)
  | none =>
    .ok { db with rows := db.rows.map (fun r =>
      if r.ID = id then { r with Title := title, Description := description, UpdatedAt := updatedAt }
      else r) }

/-- `UPDATE todos SET completed = ?, updated_at = ? WHERE id = ?`. -/
def execSetCompleted (db : DB) (fault : Option String) (completed : Bool)
    (updatedAt : Time) (id : Int) : Except Error DB :=
  match fault with
  | some msg => .error (faultError msg)
  | none =>
    .ok { db with rows := db.rows.map (fun r =>
      if r.ID = id then { r with Completed := completed, UpdatedAt := updatedAt } else r) }

/-- `DELETE FROM todos WHERE id = ?`.  Zero matching rows is not an error. -/
def execDelete (db : DB) (fault : Option String) (id : Int) : Except Error DB :=
  match fault with
  | some msg => .error (faultError msg)
  | none => .ok { db with rows := db.rows.filter (fun r => r.ID ≠ id) }

/-! ## The store (`models/todo.go`, `TodoModel`) -/

/-- `TodoModel.Create`.  `int(id)` is the identity on the 64-bit `int`, and
`LastInsertId()` of the SQLite driver does not fail. -/
def Create (db : DB) (now : Time) (fault : Option String) (req : CreateTodoRequest) :
    DB × Except Error Todo :=
  match execInsert db fault req.Title req.Description false now now with
  | .error err => (db, .error err)
  | .ok (db', id) =>
    (db', .ok
      { ID := id
        Title := req.Title
        Description := req.Description
        Completed := false
        CreatedAt := now
        UpdatedAt := now })

/-- `TodoModel.GetByID`. -/
def GetByID (db : DB) (fault : Option String) (id : Int) : Except Error Todo :=
  match queryRowByID db fault id with
  | .error err => .error err
  | .ok todo => .ok todo

/-- `TodoModel.GetAll`: `queryFault` is the outcome of `Query`, `rowsFault`
that of `rows.Err()` after the loop; `Scan` cannot fail on rows this store
wrote. -/
def GetAll (db : DB) (queryFault rowsFault : Option String) : Except Error (Slice Todo) :=
  match queryAll db queryFault with
  | .error err => .error err
  | .ok rows =>
    let todos := rows.foldl (fun (todos : Slice Todo) todo => todos.append todo) Slice.nil
    match rowsFault with
    | some msg => .error (faultError msg)
    | none => .ok todos

/-- `TodoModel.Update`: `execFault` is the outcome of the `UPDATE`,
`queryFault` that of the re-fetch. -/
def Update (db : DB) (now : Time) (execFault queryFault : Option String) (id : Int)
    (req : UpdateTodoRequest) : DB × Except Error Todo :=
  match execUpdate db execFault req.Title req.Description now id with
  | .error err => (db, .error err)
  | .ok db' => (db', GetByID db' queryFault id)

/-- `TodoModel.Delete`; `none` is the `nil` error. -/
def Delete (db : DB) (fault : Option String) (id : Int) : DB × Option Error :=
  match execDelete db fault id with
  | .error err => (db, some err)
  | .ok db' => (db', none)

/-- `TodoModel.ToggleComplete`. -/
def ToggleComplete (db : DB) (now : Time) (execFault queryFault : Option String) (id : Int)
    (completed : Bool) : DB × Except Error Todo :=
  match execSetCompleted db execFault completed now id with
  | .error err => (db, .error err)
  | .ok db' => (db', GetByID db' queryFault id)

/-- A mutating store call, with the clock reading and statement outcomes it
meets. -/
inductive StoreOp where
  | create (now : Time) (fault : Option String) (req : CreateTodoRequest)
  | update (now : Time) (execFault queryFault : Option String) (id : Int) (req : UpdateTodoRequest)
  | delete (fault : Option String) (id : Int)
  | toggle (now : Time) (execFault queryFault : Option String) (id : Int) (completed : Bool)
  deriving Repr

/-- Database after one store call. -/
def StoreOp.run : StoreOp → DB → DB
  | .create now fault req, db => (Create db now fault req).1
  | .update now execFault queryFault id req, db => (Update db now execFault queryFault id req).1
  | .delete fault id, db => (Delete db fault id).1
  | .toggle now execFault queryFault id completed, db =>
    (ToggleComplete db now execFault queryFault id completed).1

/-- Database after a sequence of store calls, first call first. -/
def runOps (ops : List StoreOp) (db : DB) : DB :=
  ops.foldl (fun d op => op.run d) db

/-- Run `Create` for each `(now, request)` in turn without storage faults,
collecting the created records; `none` as soon as one call fails. -/
def createAll : DB → List (Time × CreateTodoRequest) → Option (DB × List Todo)
  | db, [] => some (db, [])
  | db, (now, req) :: rest =>
    match Create db now none req with
    | (_, .error _) => none
    | (db', .ok todo) =>
      match createAll db' rest with
      | none => none
      | some (db'', todos) => some (db'', todo :: todos)

/-! ## Request decoding used by the handlers -/

/-- `strconv.Atoi`: an optional sign followed by one or more decimal digits,
within the range of a 64-bit `int`; `none` is the error result. -/
def Atoi (s : String) : Option Int :=
  let cs := s.toList
  let neg := cs.head? = some '-'
  let ds := if cs.head? = some '-' ∨ cs.head? = some '+' then cs.tail else cs
  if ds = [] then none
  else if ds.all Char.isDigit then
    let n : Nat := ds.foldl (fun acc c => 10 * acc + (c.toNat - 48)) 0
    if neg then (if n ≤ 9223372036854775808 then some (-(n : Int)) else none)
    else (if n ≤ 9223372036854775807 then some (n : Int) else none)
  else none

/-- A request body as `encoding/json` sees it when decoding into a request
struct with string fields `title` and `description`: it either does not
deserialize (not JSON, not an object, a field of the wrong type, no body), or is
an object whose two fields are present or absent. -/
inductive JsonBody where
  | malformed
  | object (title description : Option String)
  deriving DecidableEq, Repr

/-- `c.ShouldBindJSON(&req)` for `CreateTodoRequest`: decode (an absent field
keeps the zero value `""`), then validate `binding:"required"` on `Title`,
which rejects the zero value.  `none` is the error result. -/
def ShouldBindJSONCreate (body : JsonBody) : Option CreateTodoRequest :=
  match body with
  | .malformed => none
  | .object title description =>
    let req : CreateTodoRequest := ⟨title.getD "", description.getD ""⟩
    if req.Title = "" then none else some req

/-- `c.ShouldBindJSON(&req)` for `UpdateTodoRequest`. -/
def ShouldBindJSONUpdate (body : JsonBody) : Option UpdateTodoRequest :=
  match body with
  | .malformed => none
  | .object title description =>
    let req : UpdateTodoRequest := ⟨title.getD "", description.getD ""⟩
    if req.Title = "" then none else some req

/-! ## The handlers (`handlers/todo.go`, `TodoHandler`) -/

/-- The value handed to `c.JSON`: a `gin.H` map with string values, a todo, or
a slice of todos. -/
inductive Payload where
  | H (fields : List (String × String))
  | todo (t : Todo)
  | todos (ts : Slice Todo)
  deriving DecidableEq, Repr

/-- What `c.JSON(status, obj)` writes. -/
structure Response where
  status : Nat
  body : Payload
  deriving DecidableEq, Repr

def StatusOK : Nat := 200
def StatusCreated : Nat := 201
def StatusBadRequest : Nat := 400
def StatusNotFound : Nat := 404
def StatusInternalServerError : Nat := 500

/-- The body `gin.H{"error": msg}`. -/
def errorBody (msg : String) : Payload := .H [("error", msg)]

/-- `TodoHandler.GetTodos`. -/
def GetTodos (db : DB) (queryFault rowsFault : Option String) : DB × Response :=
  match GetAll db queryFault rowsFault with
  | .error _ => (db, ⟨StatusInternalServerError, errorBody "Failed to retrieve todos"⟩)
  | .ok todos => (db, ⟨StatusOK, .todos todos⟩)

/-- `TodoHandler.GetTodo`; `param` is `c.Param("id")`. -/
def GetTodo (db : DB) (fault : Option String) (param : String) : DB × Response :=
  match Atoi param with
  | none => (db, ⟨StatusBadRequest, errorBody "Invalid todo ID"⟩)
  | some id =>
    match GetByID db fault id with
    | .error _ => (db, ⟨StatusNotFound, errorBody "Todo not found"⟩)
    | .ok todo => (db, ⟨StatusOK, .todo todo⟩)

/-- `TodoHandler.CreateTodo`. -/
def CreateTodo (db : DB) (now : Time) (fault : Option String) (body : JsonBody) :
    DB × Response :=
  match ShouldBindJSONCreate body with
  | none => (db, ⟨StatusBadRequest, errorBody "Invalid request data"⟩)
  | some req =>
    match Create db now fault req with
    | (db', .error _) => (db', ⟨StatusInternalServerError, errorBody "Failed to create todo"⟩)
    | (db', .ok todo) => (db', ⟨StatusCreated, .todo todo⟩)

/-- `TodoHandler.UpdateTodo`. -/
def UpdateTodo (db : DB) (now : Time) (execFault queryFault : Option String)
    (param : String) (body : JsonBody) : DB × Response :=
  match Atoi param with
  | none => (db, ⟨StatusBadRequest, errorBody "Invalid todo ID"⟩)
  | some id =>
    match ShouldBindJSONUpdate body with
    | none => (db, ⟨StatusBadRequest, errorBody "Invalid request data"⟩)
    | some req =>
      match Update db now execFault queryFault id req with
      | (db', .error _) => (db', ⟨StatusNotFound, errorBody "Todo not found"⟩)
      | (db', .ok todo) => (db', ⟨StatusOK, .todo todo⟩)

/-- `TodoHandler.DeleteTodo`: `lookupFault` is the outcome of the existence
check, `deleteFault` that of the `DELETE`. -/
def DeleteTodo (db : DB) (lookupFault deleteFault : Option String) (param : String) :
    DB × Response :=
  match Atoi param with
  | none => (db, ⟨StatusBadRequest, errorBody "Invalid todo ID"⟩)
  | some id =>
    match GetByID db lookupFault id with
    | .error _ => (db, ⟨StatusNotFound, errorBody "Todo not found"⟩)
    | .ok _ =>
      match Delete db deleteFault id with
      | (db', some _) => (db', ⟨StatusInternalServerError, errorBody "Failed to delete todo"⟩)
      | (db', none) => (db', ⟨StatusOK, .H [("message", "Todo deleted successfully")]⟩)

/-- `TodoHandler.CompleteTodo`. -/
def CompleteTodo (db : DB) (now : Time) (execFault queryFault : Option String)
    (param : String) : DB × Response :=
  match Atoi param with
  | none => (db, ⟨StatusBadRequest, errorBody "Invalid todo ID"⟩)
  | some id =>
    match ToggleComplete db now execFault queryFault id true with
    | (db', .error _) => (db', ⟨StatusNotFound, errorBody "Todo not found"⟩)
    | (db', .ok todo) => (db', ⟨StatusOK, .todo todo⟩)

/-- `TodoHandler.UncompleteTodo`. -/
def UncompleteTodo (db : DB) (now : Time) (execFault queryFault : Option String)
    (param : String) : DB × Response :=
  match Atoi param with
  | none => (db, ⟨StatusBadRequest, errorBody "Invalid todo ID"⟩)
  | some id =>
    match ToggleComplete db now execFault queryFault id false with
    | (db', .error _) => (db', ⟨StatusNotFound, errorBody "Todo not found"⟩)
    | (db', .ok todo) => (db', ⟨StatusOK, .todo todo⟩)

/-- Lookup used to compare store states record by record: the row `GetByID`
would fetch for `id`. -/
def DB.lookup (db : DB) (id : Int) : Option Todo :=
  db.rows.find? (fun r => r.ID = id)

/-- Well-formedness of an `AUTOINCREMENT` table: no row has a rowid above
the `sqlite_sequence` counter.  SQLite maintains this for every table whose
rows were all inserted without an explicit id, as this store does. -/
def DB.WF (db : DB) : Prop := ∀ r ∈ db.rows, r.ID ≤ (db.seq : Int)

/-- A history used to instantiate the theorems: two records are created and
the second one is deleted. -/
def sampleOps : List StoreOp :=
  [.create 10 none ⟨"a", ""⟩, .create 11 none ⟨"b", ""⟩, .delete none 2]

/-- Three create requests whose clock readings are not in increasing order. -/
def sampleReqs : List (Time × CreateTodoRequest) :=
  [(10, ⟨"a", ""⟩), (30, ⟨"b", ""⟩), (20, ⟨"c", ""⟩)]

/-- Two create requests one second apart across the end of daylight saving
time in a zone that moves from UTC-4 to UTC-5 (instants in seconds:
2024-11-03 01:59:59 at offset -04:00, then 01:00:00 at offset -05:00). -/
def fallBackReqs : List (Time × CreateTodoRequest) :=
  [(⟨1730613599, -14400⟩, ⟨"first", ""⟩), (⟨1730613600, -18000⟩, ⟨"second", ""⟩)]

/-- A store holding two records, used to instantiate the theorems. -/
def sampleDB : DB :=
  ⟨[⟨1, "Buy milk", "2 litres", false, 10, 10⟩, ⟨3, "Write report", "", true, 20, 25⟩], 3⟩

/-! ## Requests, histories of requests, and the JSON written by `c.JSON` -/

/-- One request to a handler, with the clock reading and statement outcomes it
meets. -/
inductive Request where
  | getTodos (queryFault rowsFault : Option String)
  | getTodo (fault : Option String) (param : String)
  | createTodo (now : Time) (fault : Option String) (body : JsonBody)
  | updateTodo (now : Time) (execFault queryFault : Option String) (param : String)
      (body : JsonBody)
  | deleteTodo (lookupFault deleteFault : Option String) (param : String)
  | completeTodo (now : Time) (execFault queryFault : Option String) (param : String)
  | uncompleteTodo (now : Time) (execFault queryFault : Option String) (param : String)
  deriving Repr

/-- The route table of `main.go`: each request goes to its handler. -/
def Request.handle : Request → DB → DB × Response
  | .getTodos queryFault rowsFault, db => GetTodos db queryFault rowsFault
  | .getTodo fault param, db => GetTodo db fault param
  | .createTodo now fault body, db => CreateTodo db now fault body
  | .updateTodo now execFault queryFault param body, db =>
    UpdateTodo db now execFault queryFault param body
  | .deleteTodo lookupFault deleteFault param, db => DeleteTodo db lookupFault deleteFault param
  | .completeTodo now execFault queryFault param, db =>
    CompleteTodo db now execFault queryFault param
  | .uncompleteTodo now execFault queryFault param, db =>
    UncompleteTodo db now execFault queryFault param

/-- Database after a sequence of requests, first request first. -/
def serve (reqs : List Request) (db : DB) : DB :=
  reqs.foldl (fun d req => (req.handle d).1) db

/-- The reading of `time.Now()` a store call takes, if it takes one. -/
def StoreOp.clock : StoreOp → Option Time
  | .create now _ _ => some now
  | .update now _ _ _ _ => some now
  | .delete _ _ => none
  | .toggle now _ _ _ _ => some now

/-- The clock readings of a history of store calls, in order. -/
def clocks (ops : List StoreOp) : List Time := ops.filterMap StoreOp.clock

/-- A JSON document; `time t` stands for the RFC 3339 string `encoding/json`
writes for the instant `t`. -/
inductive JSONValue where
  | null
  | bool (b : Bool)
  | num (n : Int)
  | str (s : String)
  | time (t : Time)
  | arr (items : List JSONValue)
  | obj (fields : List (String × JSONValue))
  deriving Repr

/-- `json.Marshal` of a `*Todo`, following the struct's `json:"..."` tags. -/
def Todo.toJSON (t : Todo) : JSONValue :=
  .obj [("id", .num t.ID), ("title", .str t.Title), ("description", .str t.Description),
    ("completed", .bool t.Completed), ("created_at", .time t.CreatedAt),
    ("updated_at", .time t.UpdatedAt)]

/-- `json.Marshal` of the value handed to `c.JSON`: a `nil` slice is written
as `null`, any other slice as an array. -/
def marshal : Payload → JSONValue
  | .H fields => .obj (fields.map (fun kv => (kv.1, .str kv.2)))
  | .todo t => t.toJSON
  | .todos .nil => .null
  | .todos (.elems xs) => .arr (xs.map Todo.toJSON)

/-- A history of requests used to instantiate the theorems: a record is
created, a create with an empty title is refused, the record is renamed. -/
def sampleRequests : List Request :=
  [.createTodo 10 none (.object (some "Buy milk") none),
   .createTodo 11 none (.object (some "") (some "no title")),
   .updateTodo 12 none none "1" (.object (some "Buy oat milk") none)]

/-! ## Rows rewritten by `UPDATE ... WHERE id = ?` -/

theorem find?_map_where (rows : List Todo) (id j : Int) (g : Todo → Todo)
    (hg : ∀ r, (g r).ID = r.ID) :
    (rows.map (fun r => if r.ID = id then g r else r)).find? (fun r => r.ID = j)
      = (rows.find? (fun r => r.ID = j)).map (fun r => if r.ID = id then g r else r) := by
  rw [List.find?_map]
  congr 2
  funext r
  by_cases h : r.ID = id
  · simp [h, hg]
  · simp [h]

theorem filter_map_where (rows : List Todo) (id : Int) (g : Todo → Todo)
    (hg : ∀ r, (g r).ID = r.ID) :
    (rows.map (fun r => if r.ID = id then g r else r)).filter (fun r => r.ID ≠ id)
      = rows.filter (fun r => r.ID ≠ id) := by
  induction rows with
  | nil => rfl
  | cons a t ih =>
    by_cases ha : a.ID = id
    · simp [ha, hg, List.filter_cons] at ih ⊢
      exact ih
    · simp [ha, List.filter_cons] at ih ⊢
      exact ih

theorem find?_ID {rows : List Todo} {id : Int} {r : Todo}
    (h : rows.find? (fun x => x.ID = id) = some r) : r.ID = id := by
  have := List.find?_some h
  simpa using this

theorem map_where_absent (rows : List Todo) (id : Int) (g : Todo → Todo)
    (h : rows.find? (fun x => x.ID = id) = none) :
    rows.map (fun r => if r.ID = id then g r else r) = rows := by
  induction rows with
  | nil => rfl
  | cons a t ih =>
    simp [List.find?_cons] at h
    by_cases ha : a.ID = id
    · simp [ha] at h
    · simp [ha] at h
      simp only [List.map_cons, if_neg ha]
      rw [ih (by simpa using h)]

/-! ## The store: reads after writes -/

theorem GetByID_eq_lookup (db : DB) (id : Int) :
    GetByID db none id = match db.lookup id with
      | none => .error .ErrNoRows
      | some r => .ok r := by
  unfold GetByID queryRowByID DB.lookup
  cases db.rows.find? (fun r => r.ID = id) <;> rfl

theorem Update_found (db : DB) (now : Time) (id : Int) (req : UpdateTodoRequest) (old : Todo)
    (h : db.lookup id = some old) :
    ∃ db', Update db now none none id req
        = (db', .ok { old with Title := req.Title, Description := req.Description, UpdatedAt := now }) ∧
      db'.lookup id
        = some { old with Title := req.Title, Description := req.Description, UpdatedAt := now } ∧
      db'.rows.filter (fun r => r.ID ≠ id) = db.rows.filter (fun r => r.ID ≠ id) ∧
      db'.rows.length = db.rows.length ∧ db'.seq = db.seq := by
  have hid : old.ID = id := find?_ID h
  have hl : ({ db with rows := db.rows.map (fun r =>
      if r.ID = id then { r with Title := req.Title, Description := req.Description, UpdatedAt := now }
      else r) } : DB).lookup id
      = some { old with Title := req.Title, Description := req.Description, UpdatedAt := now } := by
    unfold DB.lookup at h ⊢
    rw [find?_map_where db.rows id id
      (fun r => { r with Title := req.Title, Description := req.Description, UpdatedAt := now })
      (fun _ => rfl), h]
    simp [hid]
  refine ⟨_, ?_, hl, ?_, ?_, rfl⟩
  · simp only [Update, execUpdate]
    rw [GetByID_eq_lookup, hl]
  · exact filter_map_where db.rows id
      (fun r => { r with Title := req.Title, Description := req.Description, UpdatedAt := now })
      (fun _ => rfl)
  · simp

theorem ToggleComplete_found (db : DB) (now : Time) (id : Int) (b : Bool) (old : Todo)
    (h : db.lookup id = some old) :
    ∃ db', ToggleComplete db now none none id b
        = (db', .ok { old with Completed := b, UpdatedAt := now }) ∧
      db'.lookup id = some { old with Completed := b, UpdatedAt := now } ∧
      db'.rows.filter (fun r => r.ID ≠ id) = db.rows.filter (fun r => r.ID ≠ id) ∧
      db'.rows.length = db.rows.length ∧ db'.seq = db.seq := by
  have hid : old.ID = id := find?_ID h
  have hl : ({ db with rows := db.rows.map (fun r =>
      if r.ID = id then { r with Completed := b, UpdatedAt := now } else r) } : DB).lookup id
      = some { old with Completed := b, UpdatedAt := now } := by
    unfold DB.lookup at h ⊢
    rw [find?_map_where db.rows id id
      (fun r => { r with Completed := b, UpdatedAt := now }) (fun _ => rfl), h]
    simp [hid]
  refine ⟨_, ?_, hl, ?_, ?_, rfl⟩
  · simp only [ToggleComplete, execSetCompleted]
    rw [GetByID_eq_lookup, hl]
  · exact filter_map_where db.rows id
      (fun r => { r with Completed := b, UpdatedAt := now }) (fun _ => rfl)
  · simp

/-! ## Claims about `Update` and `ToggleComplete` -/

/-- C1: for every store state, every id whose record `old` is in it and every
title and description, `Update` (absent a storage fault) succeeds and returns
the record now stored under that id; it is `old` with title and description
replaced by the arguments and `updated_at` set to the time of the call, so
id, completed and created_at are those of `old`; the records with a different
id are the same, in the same order, as before, and no record is added or
removed. -/
theorem Update_existing (db : DB) (now : Time) (id : Int) (req : UpdateTodoRequest) (old : Todo)
    (h : db.lookup id = some old) :
    ∃ db' new, Update db now none none id req = (db', .ok new) ∧
      GetByID db' none id = .ok new ∧
      new.Title = req.Title ∧ new.Description = req.Description ∧ new.UpdatedAt = now ∧
      new.ID = id ∧ new.ID = old.ID ∧ new.Completed = old.Completed ∧
      new.CreatedAt = old.CreatedAt ∧
      db'.rows.filter (fun r => r.ID ≠ id) = db.rows.filter (fun r => r.ID ≠ id) ∧
      db'.rows.length = db.rows.length := by
  obtain ⟨db', h1, h2, h3, h4, _⟩ := Update_found db now id req old h
  refine ⟨db', _, h1, ?_, rfl, rfl, rfl, (find?_ID h : old.ID = id), rfl, rfl, rfl, h3, h4⟩
  rw [GetByID_eq_lookup, h2]

theorem Update_existing_witness :
    sampleDB.lookup 3 = some ⟨3, "Write report", "", true, 20, 25⟩ ∧
    ∃ db' new, Update sampleDB 40 none none 3 ⟨"Report v2", "final"⟩ = (db', .ok new) ∧
      GetByID db' none 3 = .ok new ∧
      new.Title = "Report v2" ∧ new.Description = "final" ∧ new.UpdatedAt = 40 ∧
      new.ID = 3 ∧ new.ID = 3 ∧ new.Completed = true ∧ new.CreatedAt = 20 ∧
      db'.rows.filter (fun r => r.ID ≠ 3) = sampleDB.rows.filter (fun r => r.ID ≠ 3) ∧
      db'.rows.length = sampleDB.rows.length :=
  ⟨by decide, Update_existing sampleDB 40 3 ⟨"Report v2", "final"⟩
    ⟨3, "Write report", "", true, 20, 25⟩ (by decide)⟩

/-- C2: for every store state, every id whose record `old` is in it and every
boolean `b`, `ToggleComplete id b` (absent a storage fault) stores and returns
`old` with completed set to `b` and `updated_at` refreshed, whatever
`old.Completed` was: the returned record is the one `GetByID` then fetches
from the resulting store; a second call with any `b2` on that store stores
and returns the record with completed `b2` (so `true` then `false` ends at
`false`, and `b` twice gives `b` as once); title, description, created_at and
id are those of `old`, and the records with a different id are untouched by
both calls. -/
theorem ToggleComplete_sets (db : DB) (now now2 : Time) (id : Int) (b b2 : Bool) (old : Todo)
    (h : db.lookup id = some old) :
    ∃ db' new db'' new2,
      ToggleComplete db now none none id b = (db', .ok new) ∧
      GetByID db' none id = .ok new ∧
      new.Completed = b ∧ new.UpdatedAt = now ∧
      new.Title = old.Title ∧ new.Description = old.Description ∧
      new.CreatedAt = old.CreatedAt ∧ new.ID = old.ID ∧ new.ID = id ∧
      db'.rows.filter (fun r => r.ID ≠ id) = db.rows.filter (fun r => r.ID ≠ id) ∧
      db'.rows.length = db.rows.length ∧
      ToggleComplete db' now2 none none id b2 = (db'', .ok new2) ∧
      GetByID db'' none id = .ok new2 ∧
      new2.Completed = b2 ∧
      new2.Title = old.Title ∧ new2.Description = old.Description ∧
      new2.CreatedAt = old.CreatedAt ∧ new2.ID = old.ID ∧
      db''.rows.filter (fun r => r.ID ≠ id) = db.rows.filter (fun r => r.ID ≠ id) ∧
      db''.rows.length = db.rows.length := by
  obtain ⟨db', h1, h2, h3, h4, _⟩ := ToggleComplete_found db now id b old h
  obtain ⟨db'', k1, k2, k3, k4, _⟩ := ToggleComplete_found db' now2 id b2 _ h2
  refine ⟨db', _, db'', _, h1, ?_, rfl, rfl, rfl, rfl, rfl, rfl, (find?_ID h : old.ID = id),
    h3, h4, k1, ?_, rfl, rfl, rfl, rfl, rfl, k3.trans h3, k4.trans h4⟩
  · rw [GetByID_eq_lookup, h2]
  · rw [GetByID_eq_lookup, k2]

theorem ToggleComplete_sets_witness :
    sampleDB.lookup 1 = some ⟨1, "Buy milk", "2 litres", false, 10, 10⟩ ∧
    ∃ db' new db'' new2,
      ToggleComplete sampleDB 30 none none 1 true = (db', .ok new) ∧
      GetByID db' none 1 = .ok new ∧
      new.Completed = true ∧ new.UpdatedAt = 30 ∧
      new.Title = "Buy milk" ∧ new.Description = "2 litres" ∧
      new.CreatedAt = 10 ∧ new.ID = 1 ∧ new.ID = 1 ∧
      db'.rows.filter (fun r => r.ID ≠ 1) = sampleDB.rows.filter (fun r => r.ID ≠ 1) ∧
      db'.rows.length = sampleDB.rows.length ∧
      ToggleComplete db' 31 none none 1 false = (db'', .ok new2) ∧
      GetByID db'' none 1 = .ok new2 ∧
      new2.Completed = false ∧
      new2.Title = "Buy milk" ∧ new2.Description = "2 litres" ∧
      new2.CreatedAt = 10 ∧ new2.ID = 1 ∧
      db''.rows.filter (fun r => r.ID ≠ 1) = sampleDB.rows.filter (fun r => r.ID ≠ 1) ∧
      db''.rows.length = sampleDB.rows.length :=
  ⟨by decide, ToggleComplete_sets sampleDB 30 31 1 true false
    ⟨1, "Buy milk", "2 litres", false, 10, 10⟩ (by decide)⟩

/-- C3: for every store state and every id with no record in it, `GetByID`
returns `sql.ErrNoRows`, and `Update` and `ToggleComplete` (absent a storage
fault) return that same error and no todo, leaving the store exactly as it
was. -/
theorem Update_ToggleComplete_missing (db : DB) (now : Time) (id : Int)
    (req : UpdateTodoRequest) (b : Bool) (h : db.lookup id = none) :
    GetByID db none id = .error .ErrNoRows ∧
    Update db now none none id req = (db, .error .ErrNoRows) ∧
    ToggleComplete db now none none id b = (db, .error .ErrNoRows) := by
  have hg : GetByID db none id = .error .ErrNoRows := by rw [GetByID_eq_lookup, h]
  unfold DB.lookup at h
  refine ⟨hg, ?_, ?_⟩
  · simp only [Update, execUpdate]
    rw [map_where_absent db.rows id _ h]
    exact congrArg _ hg
  · simp only [ToggleComplete, execSetCompleted]
    rw [map_where_absent db.rows id _ h]
    exact congrArg _ hg

theorem Update_ToggleComplete_missing_witness :
    sampleDB.lookup 2 = none ∧
    GetByID sampleDB none 2 = .error .ErrNoRows ∧
    Update sampleDB 40 none none 2 ⟨"t", "d"⟩ = (sampleDB, .error .ErrNoRows) ∧
    ToggleComplete sampleDB 40 none none 2 true = (sampleDB, .error .ErrNoRows) :=
  ⟨by decide, Update_ToggleComplete_missing sampleDB 40 2 ⟨"t", "d"⟩ true (by decide)⟩

/-! ## `AUTOINCREMENT` and `Create` -/

theorem foldl_max_ge_init (rows : List Todo) (init : Nat) :
    init ≤ rows.foldl (fun m r => max m r.ID.toNat) init := by
  induction rows generalizing init with
  | nil => exact le_refl _
  | cons a t ih => exact le_trans (le_max_left _ _) (ih _)

theorem foldl_max_ge_mem (rows : List Todo) (init : Nat) (r : Todo) (hr : r ∈ rows) :
    r.ID.toNat ≤ rows.foldl (fun m r => max m r.ID.toNat) init := by
  induction rows generalizing init with
  | nil => cases hr
  | cons a t ih =>
    rcases List.mem_cons.mp hr with rfl | hm
    · exact le_trans (le_max_right _ _) (foldl_max_ge_init t _)
    · exact ih _ hm

theorem foldl_max_eq_init (rows : List Todo) (init : Nat)
    (h : ∀ r ∈ rows, r.ID.toNat ≤ init) :
    rows.foldl (fun m r => max m r.ID.toNat) init = init := by
  induction rows with
  | nil => rfl
  | cons a t ih =>
    have ha : a.ID.toNat ≤ init := h a (List.mem_cons_self _ _)
    simp only [List.foldl_cons, max_eq_left ha]
    exact ih (fun r hr => h r (List.mem_cons_of_mem _ hr))

theorem ID_le_highWater (db : DB) (r : Todo) (hr : r ∈ db.rows) :
    r.ID ≤ (db.highWater : Int) := by
  have h := foldl_max_ge_mem db.rows db.seq r hr
  unfold DB.highWater
  omega

theorem lookup_above_highWater (db : DB) (id : Int) (h : (db.highWater : Int) < id) :
    db.rows.find? (fun r => r.ID = id) = none := by
  rw [List.find?_eq_none]
  intro r hr
  have := ID_le_highWater db r hr
  simp only [decide_eq_true_eq]
  omega

/-- What a successful `Create` did. -/
theorem Create_ok (db : DB) (now : Time) (fault : Option String) (req : CreateTodoRequest)
    (db' : DB) (r : Todo) (h : Create db now fault req = (db', .ok r)) :
    fault = none ∧ db.highWater < maxRowid ∧
    r = ⟨(db.highWater + 1 : Nat), req.Title, req.Description, false, now, now⟩ ∧
    db' = ⟨db.rows ++ [r], db.highWater + 1⟩ := by
  unfold Create execInsert at h
  cases fault with
  | some msg => simp [faultError] at h
  | none =>
    by_cases hfull : db.highWater ≥ maxRowid
    · simp [hfull] at h
    · simp only [hfull, if_false, Prod.mk.injEq, Except.ok.injEq] at h
      obtain ⟨h1, h2⟩ := h
      subst h2
      exact ⟨rfl, not_le.mp hfull, rfl, h1.symm⟩

/-- C4: for every store state, title and description, if `Create` succeeds and
returns `r`, then `GetByID r.ID` on the resulting store succeeds and returns a
record equal to `r` (all six fields). -/
theorem GetByID_after_Create (db : DB) (now : Time) (fault : Option String)
    (req : CreateTodoRequest) (db' : DB) (r : Todo)
    (h : Create db now fault req = (db', .ok r)) :
    GetByID db' none r.ID = .ok r := by
  obtain ⟨_, _, hr, hdb⟩ := Create_ok db now fault req db' r h
  have hid : r.ID = ((db.highWater + 1 : Nat) : Int) := by rw [hr]
  have hnone := lookup_above_highWater db r.ID (by rw [hid]; push_cast; omega)
  rw [GetByID_eq_lookup]
  unfold DB.lookup
  rw [hdb]
  simp [List.find?_append, hnone]

theorem GetByID_after_Create_witness :
    Create sampleDB 50 none ⟨"T", "D"⟩
      = (⟨sampleDB.rows ++ [⟨4, "T", "D", false, 50, 50⟩], 4⟩, .ok ⟨4, "T", "D", false, 50, 50⟩) ∧
    GetByID ⟨sampleDB.rows ++ [⟨4, "T", "D", false, 50, 50⟩], 4⟩ none
      (⟨4, "T", "D", false, 50, 50⟩ : Todo).ID = .ok ⟨4, "T", "D", false, 50, 50⟩ :=
  ⟨rfl, GetByID_after_Create sampleDB 50 none ⟨"T", "D"⟩ _ _ rfl⟩

/-! ## Ids are never reused -/

theorem WF_highWater (db : DB) (h : db.WF) : db.highWater = db.seq := by
  unfold DB.highWater
  apply foldl_max_eq_init
  intro r hr
  have := h r hr
  omega

theorem Create_WF (db : DB) (now : Time) (fault : Option String) (req : CreateTodoRequest)
    (h : db.WF) : (Create db now fault req).1.WF := by
  unfold Create execInsert
  cases fault with
  | some msg => exact h
  | none =>
    by_cases hfull : db.highWater ≥ maxRowid
    · simpa [hfull] using h
    · simp only [hfull, if_false]
      intro r hr
      rcases List.mem_append.mp hr with hm | hm
      · have := ID_le_highWater db r hm
        push_cast
        omega
      · rw [List.mem_singleton.mp hm]

theorem Create_seq_le (db : DB) (now : Time) (fault : Option String) (req : CreateTodoRequest) :
    db.seq ≤ (Create db now fault req).1.seq := by
  unfold Create execInsert
  cases fault with
  | some msg => exact le_refl _
  | none =>
    by_cases hfull : db.highWater ≥ maxRowid
    · simp [hfull]
    · simp only [hfull, if_false]
      have := foldl_max_ge_init db.rows db.seq
      unfold DB.highWater
      omega

theorem map_where_WF (db : DB) (id : Int) (g : Todo → Todo) (hg : ∀ r, (g r).ID = r.ID)
    (h : db.WF) :
    ({ db with rows := db.rows.map (fun r => if r.ID = id then g r else r) } : DB).WF := by
  intro r hr
  obtain ⟨a, ha, rfl⟩ := List.mem_map.mp hr
  have := h a ha
  by_cases hid : a.ID = id
  · simpa [hid, hg] using (hid ▸ this)
  · simpa [hid] using this

theorem run_WF (op : StoreOp) (db : DB) (h : db.WF) : (op.run db).WF := by
  cases op with
  | create now fault req => exact Create_WF db now fault req h
  | update now execFault queryFault id req =>
    cases execFault with
    | some msg => exact h
    | none =>
      exact map_where_WF db id
        (fun r => { r with Title := req.Title, Description := req.Description, UpdatedAt := now })
        (fun _ => rfl) h
  | delete fault id =>
    cases fault with
    | some msg => exact h
    | none =>
      intro r hr
      exact h r (List.mem_of_mem_filter hr)
  | toggle now execFault queryFault id completed =>
    cases execFault with
    | some msg => exact h
    | none =>
      exact map_where_WF db id
        (fun r => { r with Completed := completed, UpdatedAt := now }) (fun _ => rfl) h

theorem run_seq_le (op : StoreOp) (db : DB) : db.seq ≤ (op.run db).seq := by
  cases op with
  | create now fault req => exact Create_seq_le db now fault req
  | update now execFault queryFault id req => cases execFault <;> exact le_refl _
  | delete fault id => cases fault <;> exact le_refl _
  | toggle now execFault queryFault id completed => cases execFault <;> exact le_refl _

theorem runOps_WF (ops : List StoreOp) (db : DB) (h : db.WF) : (runOps ops db).WF := by
  induction ops generalizing db with
  | nil => exact h
  | cons op rest ih => exact ih _ (run_WF op db h)

theorem runOps_seq_le (ops : List StoreOp) (db : DB) : db.seq ≤ (runOps ops db).seq := by
  induction ops generalizing db with
  | nil => exact le_refl _
  | cons op rest ih => exact le_trans (run_seq_le op db) (ih _)

theorem runOps_append (ops1 ops2 : List StoreOp) (db : DB) :
    runOps (ops1 ++ ops2) db = runOps ops2 (runOps ops1 db) := by
  simp [runOps, List.foldl_append]

/-- Every record of every earlier state of a history has an id at most the
counter of the final state. -/
theorem history_ID_le_seq (db0 : DB) (hwf : db0.WF) (ops : List StoreOp) (k : Nat)
    (x : Todo) (hx : x ∈ (runOps (ops.take k) db0).rows) :
    x.ID ≤ ((runOps ops db0).seq : Int) := by
  have h1 := runOps_WF (ops.take k) db0 hwf x hx
  have h2 : (runOps (ops.take k) db0).seq ≤ (runOps ops db0).seq := by
    conv_rhs => rw [← List.take_append_drop k ops, runOps_append]
    exact runOps_seq_le _ _
  omega

/-- C5: for every store state and every title and description, a successful
`Create` returns a record with the request's title and description,
`completed = false`, `created_at = updated_at`, and a positive id different
from the id of every record in the store; the rows after the call are the rows
before it followed by the new record; and whenever the store state was reached
from a well-formed table by a history of store calls, the id also differs from
the id of every record of every earlier state of that history (so of every
record deleted since). -/
theorem Create_fresh (db : DB) (now : Time) (fault : Option String) (req : CreateTodoRequest)
    (db' : DB) (r : Todo) (h : Create db now fault req = (db', .ok r)) :
    r.Title = req.Title ∧ r.Description = req.Description ∧ r.Completed = false ∧
    r.CreatedAt = r.UpdatedAt ∧ 0 < r.ID ∧
    (∀ x ∈ db.rows, x.ID ≠ r.ID) ∧
    db'.rows = db.rows ++ [r] ∧
    (∀ db0 ops, db0.WF → runOps ops db0 = db →
      ∀ k, ∀ x ∈ (runOps (ops.take k) db0).rows, x.ID ≠ r.ID) := by
  obtain ⟨_, _, hr, hdb⟩ := Create_ok db now fault req db' r h
  have hid : r.ID = ((db.highWater + 1 : Nat) : Int) := by rw [hr]
  refine ⟨by rw [hr], by rw [hr], by rw [hr], by rw [hr], ?_, ?_, by rw [hdb], ?_⟩
  · rw [hid]
    push_cast
    omega
  · intro x hx
    have := ID_le_highWater db x hx
    rw [hid]
    push_cast
    omega
  · intro db0 ops hwf hrun k x hx
    have hhw : db.highWater = db.seq := WF_highWater db (hrun ▸ runOps_WF ops db0 hwf)
    have := history_ID_le_seq db0 hwf ops k x hx
    rw [hrun] at this
    rw [hid, hhw]
    push_cast
    omega

theorem Create_fresh_witness :
    Create (runOps sampleOps emptyDB) 12 none ⟨"T", "D"⟩
      = (⟨[⟨1, "a", "", false, 10, 10⟩, ⟨3, "T", "D", false, 12, 12⟩], 3⟩,
          .ok ⟨3, "T", "D", false, 12, 12⟩) ∧
    emptyDB.WF ∧
    (⟨2, "b", "", false, 11, 11⟩ : Todo) ∈ (runOps (sampleOps.take 2) emptyDB).rows ∧
    (∀ k, ∀ x ∈ (runOps (sampleOps.take k) emptyDB).rows, x.ID ≠ 3) ∧
    ((⟨3, "T", "D", false, 12, 12⟩ : Todo).Title = "T" ∧
    (⟨3, "T", "D", false, 12, 12⟩ : Todo).Description = "D" ∧
    (⟨3, "T", "D", false, 12, 12⟩ : Todo).Completed = false ∧
    (⟨3, "T", "D", false, 12, 12⟩ : Todo).CreatedAt = (⟨3, "T", "D", false, 12, 12⟩ : Todo).UpdatedAt ∧
    0 < (⟨3, "T", "D", false, 12, 12⟩ : Todo).ID ∧
    (∀ x ∈ (runOps sampleOps emptyDB).rows, x.ID ≠ (⟨3, "T", "D", false, 12, 12⟩ : Todo).ID) ∧
    (⟨[⟨1, "a", "", false, 10, 10⟩, ⟨3, "T", "D", false, 12, 12⟩], 3⟩ : DB).rows
      = (runOps sampleOps emptyDB).rows ++ [⟨3, "T", "D", false, 12, 12⟩] ∧
    (∀ db0 ops, db0.WF → runOps ops db0 = runOps sampleOps emptyDB →
      ∀ k, ∀ x ∈ (runOps (ops.take k) db0).rows,
        x.ID ≠ (⟨3, "T", "D", false, 12, 12⟩ : Todo).ID)) :=
  ⟨rfl, (fun _ hr => by cases hr), by decide,
    (Create_fresh (runOps sampleOps emptyDB) 12 none ⟨"T", "D"⟩ _
      ⟨3, "T", "D", false, 12, 12⟩ rfl).2.2.2.2.2.2.2 emptyDB sampleOps
      (fun _ hr => by cases hr) rfl,
    Create_fresh (runOps sampleOps emptyDB) 12 none ⟨"T", "D"⟩ _ _ rfl⟩

/-! ## `GetAll` -/

theorem foldl_append_toList (xs : List Todo) (s : Slice Todo) :
    (xs.foldl (fun (todos : Slice Todo) todo => todos.append todo) s).toList = s.toList ++ xs := by
  induction xs generalizing s with
  | nil => simp
  | cons a t ih =>
    rw [List.foldl_cons, ih]
    show (s.toList ++ [a]) ++ t = s.toList ++ a :: t
    simp

theorem GetAll_ok (db : DB) :
    ∃ s, GetAll db none none = .ok s ∧ s.toList = db.rows.insertionSort createdDesc :=
  ⟨_, rfl, by rw [foldl_append_toList]; rfl⟩

theorem createAll_rows (reqs : List (Time × CreateTodoRequest)) (db db' : DB)
    (created : List Todo) (h : createAll db reqs = some (db', created)) :
    db'.rows = db.rows ++ created ∧ created.length = reqs.length := by
  induction reqs generalizing db created with
  | nil =>
    simp only [createAll, Option.some.injEq, Prod.mk.injEq] at h
    obtain ⟨h1, h2⟩ := h
    subst h1 h2
    simp
  | cons nr rest ih =>
    obtain ⟨now, req⟩ := nr
    unfold createAll at h
    cases hc : Create db now none req with
    | mk d res =>
      cases res with
      | error e => simp [hc] at h
      | ok todo =>
        simp only [hc] at h
        cases hrest : createAll d rest with
        | none => simp [hrest] at h
        | some p =>
          obtain ⟨d2, todos⟩ := p
          simp only [hrest, Option.some.injEq, Prod.mk.injEq] at h
          obtain ⟨h1, h2⟩ := h
          subst h1 h2
          obtain ⟨i1, i2⟩ := ih d todos hrest
          obtain ⟨_, _, _, hd⟩ := Create_ok db now none req d todo hc
          rw [i1, hd]
          simp [i2]

/-- What `GetAll` does deliver: on the empty store an empty sequence and no
error; after N successful `Create` calls on the empty store exactly N records,
a rearrangement of the N created records, in descending order of the stored
`created_at` texts; when all of them were created under one UTC offset `o`,
each record's created_at is at least that of the record right after it. -/
theorem GetAll_after_creates (reqs : List (Time × CreateTodoRequest)) (db : DB)
    (created : List Todo) (o : Int) (h : createAll emptyDB reqs = some (db, created))
    (ho : ∀ r ∈ created, r.CreatedAt.offset = o) :
    (∃ s0, GetAll emptyDB none none = .ok s0 ∧ s0.len = 0) ∧
    ∃ s, GetAll db none none = .ok s ∧ s.len = reqs.length ∧
      created.length = reqs.length ∧ s.toList.Perm created ∧
      List.Pairwise createdDesc s.toList ∧
      ∀ i (hi : i + 1 < s.toList.length),
        (s.toList.get ⟨i + 1, hi⟩).CreatedAt ≤ (s.toList.get ⟨i, Nat.lt_of_succ_lt hi⟩).CreatedAt := by
  obtain ⟨hrows, hlen⟩ := createAll_rows reqs emptyDB db created h
  have hrows' : db.rows = created := by simpa [emptyDB] using hrows
  obtain ⟨s, hs, hl⟩ := GetAll_ok db
  have hperm : s.toList.Perm created := by
    rw [hl, ← hrows']
    exact List.perm_insertionSort _ _
  have hsorted : List.Pairwise createdDesc s.toList := by
    rw [hl]
    exact List.sorted_insertionSort createdDesc db.rows
  refine ⟨⟨_, rfl, rfl⟩, s, hs, ?_, hlen, hperm, hsorted, ?_⟩
  · rw [Slice.len, hl, List.length_insertionSort, hrows', hlen]
  · intro i hi
    have hd : createdDesc (s.toList.get ⟨i, Nat.lt_of_succ_lt hi⟩) (s.toList.get ⟨i + 1, hi⟩) :=
      (List.pairwise_iff_getElem.mp hsorted) i (i + 1) (Nat.lt_of_succ_lt hi) hi
        (Nat.lt_succ_self i)
    have h1 := ho _ (hperm.subset (List.get_mem s.toList i (Nat.lt_of_succ_lt hi)))
    have h2 := ho _ (hperm.subset (List.get_mem s.toList (i + 1) hi))
    show (s.toList.get ⟨i + 1, hi⟩).CreatedAt.instant
      ≤ (s.toList.get ⟨i, Nat.lt_of_succ_lt hi⟩).CreatedAt.instant
    unfold createdDesc Time.textLE Time.wall at hd
    omega

theorem GetAll_after_creates_witness :
    createAll emptyDB sampleReqs
      = some (⟨[⟨1, "a", "", false, 10, 10⟩, ⟨2, "b", "", false, 30, 30⟩,
                ⟨3, "c", "", false, 20, 20⟩], 3⟩,
              [⟨1, "a", "", false, 10, 10⟩, ⟨2, "b", "", false, 30, 30⟩,
                ⟨3, "c", "", false, 20, 20⟩]) ∧
    GetAll ⟨[⟨1, "a", "", false, 10, 10⟩, ⟨2, "b", "", false, 30, 30⟩,
              ⟨3, "c", "", false, 20, 20⟩], 3⟩ none none
      = .ok (.elems [⟨2, "b", "", false, 30, 30⟩, ⟨3, "c", "", false, 20, 20⟩,
              ⟨1, "a", "", false, 10, 10⟩]) ∧
    ((∃ s0, GetAll emptyDB none none = .ok s0 ∧ s0.len = 0) ∧
    ∃ s, GetAll ⟨[⟨1, "a", "", false, 10, 10⟩, ⟨2, "b", "", false, 30, 30⟩,
              ⟨3, "c", "", false, 20, 20⟩], 3⟩ none none = .ok s ∧
      s.len = sampleReqs.length ∧
      ([⟨1, "a", "", false, 10, 10⟩, ⟨2, "b", "", false, 30, 30⟩,
        ⟨3, "c", "", false, 20, 20⟩] : List Todo).length = sampleReqs.length ∧
      s.toList.Perm [⟨1, "a", "", false, 10, 10⟩, ⟨2, "b", "", false, 30, 30⟩,
        ⟨3, "c", "", false, 20, 20⟩] ∧
      List.Pairwise createdDesc s.toList ∧
      ∀ i (hi : i + 1 < s.toList.length),
        (s.toList.get ⟨i + 1, hi⟩).CreatedAt ≤ (s.toList.get ⟨i, Nat.lt_of_succ_lt hi⟩).CreatedAt) :=
  ⟨rfl, rfl, GetAll_after_creates sampleReqs _ _ 0 rfl (by decide)⟩

/-- C6 (the code at the failing input): two records are created on the empty
store one second apart, the first while the local zone is at UTC-4 and the
second after it moved to UTC-5.  Both `Create` calls succeed and `GetAll`
returns both records, but the record created first comes first although its
`created_at` is strictly earlier: the stored text of the first,
`01:59:59-04:00`, sorts after that of the second, `01:00:00-05:00`. -/
theorem GetAll_older_first_across_offset_change :
    createAll emptyDB fallBackReqs
      = some (⟨[⟨1, "first", "", false, ⟨1730613599, -14400⟩, ⟨1730613599, -14400⟩⟩,
                ⟨2, "second", "", false, ⟨1730613600, -18000⟩, ⟨1730613600, -18000⟩⟩], 2⟩,
              [⟨1, "first", "", false, ⟨1730613599, -14400⟩, ⟨1730613599, -14400⟩⟩,
               ⟨2, "second", "", false, ⟨1730613600, -18000⟩, ⟨1730613600, -18000⟩⟩]) ∧
    GetAll ⟨[⟨1, "first", "", false, ⟨1730613599, -14400⟩, ⟨1730613599, -14400⟩⟩,
             ⟨2, "second", "", false, ⟨1730613600, -18000⟩, ⟨1730613600, -18000⟩⟩], 2⟩ none none
      = .ok (.elems [⟨1, "first", "", false, ⟨1730613599, -14400⟩, ⟨1730613599, -14400⟩⟩,
              ⟨2, "second", "", false, ⟨1730613600, -18000⟩, ⟨1730613600, -18000⟩⟩]) ∧
    (⟨1730613599, -14400⟩ : Time) < ⟨1730613600, -18000⟩ ∧
    ¬ ((⟨1730613600, -18000⟩ : Time) ≤ ⟨1730613599, -14400⟩) ∧
    (⟨1730613599, -14400⟩ : Time).wall = 1730599199 ∧
    (⟨1730613600, -18000⟩ : Time).wall = 1730595600 :=
  ⟨rfl, rfl, by decide, by decide, by decide, by decide⟩

/-! ## `Delete` -/

theorem Delete_ok (db : DB) (id : Int) :
    Delete db none id = (⟨db.rows.filter (fun r => r.ID ≠ id), db.seq⟩, none) ∧
    GetByID ⟨db.rows.filter (fun r => r.ID ≠ id), db.seq⟩ none id = .error .ErrNoRows := by
  have hnone : (db.rows.filter (fun r => r.ID ≠ id)).find? (fun r => r.ID = id) = none := by
    rw [List.find?_eq_none]
    intro r hr
    have := (List.mem_filter.mp hr).2
    simpa using this
  refine ⟨rfl, ?_⟩
  rw [GetByID_eq_lookup]
  unfold DB.lookup
  simp only [hnone]

/-- C7: for every store state and every id, with or without a record of that
id, `Delete` (absent a storage fault) returns no error; afterwards `GetByID`
of that id returns the not-found error, the rows left are exactly the earlier
rows with a different id, in order, and a second `Delete` of the id again
returns no error and leaves the store as it is. -/
theorem Delete_idempotent (db : DB) (id : Int) :
    ∃ db', Delete db none id = (db', none) ∧
      GetByID db' none id = .error .ErrNoRows ∧
      db'.rows = db.rows.filter (fun r => r.ID ≠ id) ∧
      db'.seq = db.seq ∧
      Delete db' none id = (db', none) := by
  obtain ⟨h1, h2⟩ := Delete_ok db id
  refine ⟨_, h1, h2, rfl, rfl, ?_⟩
  simp only [Delete, execDelete, List.filter_filter, Bool.and_self]

/-! ## Handlers: status codes -/

/-- C8 (the code at the failing input): on a store that holds a record with
id 1, when the statement behind `GetByID`, `Update` or `ToggleComplete` fails
with a storage fault, `GetTodo`, `UpdateTodo`, `DeleteTodo`, `CompleteTodo`
and `UncompleteTodo` all answer 404 "Todo not found", not 500. -/
theorem storage_fault_answered_404 (msg : String) :
    sampleDB.lookup 1 = some ⟨1, "Buy milk", "2 litres", false, 10, 10⟩ ∧
    GetByID sampleDB (some msg) 1 = .error (.driver msg) ∧
    GetTodo sampleDB (some msg) "1"
      = (sampleDB, ⟨StatusNotFound, errorBody "Todo not found"⟩) ∧
    UpdateTodo sampleDB 40 (some msg) none "1" (.object (some "t") none)
      = (sampleDB, ⟨StatusNotFound, errorBody "Todo not found"⟩) ∧
    DeleteTodo sampleDB (some msg) none "1"
      = (sampleDB, ⟨StatusNotFound, errorBody "Todo not found"⟩) ∧
    CompleteTodo sampleDB 40 (some msg) none "1"
      = (sampleDB, ⟨StatusNotFound, errorBody "Todo not found"⟩) ∧
    UncompleteTodo sampleDB 40 (some msg) none "1"
      = (sampleDB, ⟨StatusNotFound, errorBody "Todo not found"⟩) :=
  ⟨by decide, rfl, rfl, rfl, rfl, rfl, rfl⟩

/-! ## `DeleteTodo` -/

/-- C9: for every store state and every DELETE request whose id parses (no
storage fault): if `GetByID` finds no record of that id, `DeleteTodo` answers
404 with an error body and leaves the store unchanged, whatever the outcome a
`DELETE` statement would have had (none is executed); if a record exists, it
answers 200 with the confirmation message, the rows left are exactly the
earlier rows with a different id, and `GetByID` of the id is then not-found. -/
theorem DeleteTodo_checks_then_deletes (db : DB) (param : String) (id : Int)
    (hp : Atoi param = some id) :
    (db.lookup id = none →
      ∀ deleteFault, DeleteTodo db none deleteFault param
        = (db, ⟨StatusNotFound, errorBody "Todo not found"⟩)) ∧
    (∀ old, db.lookup id = some old →
      ∃ db', DeleteTodo db none none param
          = (db', ⟨StatusOK, .H [("message", "Todo deleted successfully")]⟩) ∧
        db'.rows = db.rows.filter (fun r => r.ID ≠ id) ∧
        GetByID db' none id = .error .ErrNoRows) := by
  constructor
  · intro h deleteFault
    unfold DeleteTodo
    simp only [hp, GetByID_eq_lookup, h]
  · intro old h
    obtain ⟨h1, h2⟩ := Delete_ok db id
    refine ⟨_, ?_, rfl, h2⟩
    unfold DeleteTodo
    simp only [hp, GetByID_eq_lookup, h, h1]

theorem DeleteTodo_checks_then_deletes_witness :
    (Atoi "3" = some 3 ∧
      sampleDB.lookup 3 = some ⟨3, "Write report", "", true, 20, 25⟩ ∧
      DeleteTodo sampleDB none none "3"
        = (⟨[⟨1, "Buy milk", "2 litres", false, 10, 10⟩], 3⟩,
            ⟨StatusOK, .H [("message", "Todo deleted successfully")]⟩) ∧
      ∃ db', DeleteTodo sampleDB none none "3"
          = (db', ⟨StatusOK, .H [("message", "Todo deleted successfully")]⟩) ∧
        db'.rows = sampleDB.rows.filter (fun r => r.ID ≠ 3) ∧
        GetByID db' none 3 = .error .ErrNoRows) ∧
    (Atoi "2" = some 2 ∧ sampleDB.lookup 2 = none ∧
      ∀ deleteFault, DeleteTodo sampleDB none deleteFault "2"
        = (sampleDB, ⟨StatusNotFound, errorBody "Todo not found"⟩)) :=
  ⟨⟨by decide, by decide, rfl,
      (DeleteTodo_checks_then_deletes sampleDB "3" 3 (by decide)).2
        ⟨3, "Write report", "", true, 20, 25⟩ (by decide)⟩,
    ⟨by decide, by decide,
      (DeleteTodo_checks_then_deletes sampleDB "2" 2 (by decide)).1 (by decide)⟩⟩

/-! ## Validation -/

/-- C10: invalid input is answered 400 with a body `{"error": message}` and
the store unchanged, for every clock reading and every outcome the storage
statements would have had (none is executed): `CreateTodo` and `UpdateTodo`
when the body does not deserialize or its title is absent or the empty
string; `GetTodo`, `UpdateTodo`, `DeleteTodo`, `CompleteTodo` and
`UncompleteTodo` when the id segment does not parse as an integer. -/
theorem invalid_input_rejected (db : DB) (now : Time) (f1 f2 : Option String)
    (param : String) (body : JsonBody) :
    ((body = .malformed ∨ ∃ d, body = .object none d ∨ body = .object (some "") d) →
      CreateTodo db now f1 body = (db, ⟨StatusBadRequest, errorBody "Invalid request data"⟩) ∧
      ∃ m, UpdateTodo db now f1 f2 param body = (db, ⟨StatusBadRequest, errorBody m⟩)) ∧
    (Atoi param = none →
      GetTodo db f1 param = (db, ⟨StatusBadRequest, errorBody "Invalid todo ID"⟩) ∧
      UpdateTodo db now f1 f2 param body = (db, ⟨StatusBadRequest, errorBody "Invalid todo ID"⟩) ∧
      DeleteTodo db f1 f2 param = (db, ⟨StatusBadRequest, errorBody "Invalid todo ID"⟩) ∧
      CompleteTodo db now f1 f2 param = (db, ⟨StatusBadRequest, errorBody "Invalid todo ID"⟩) ∧
      UncompleteTodo db now f1 f2 param
        = (db, ⟨StatusBadRequest, errorBody "Invalid todo ID"⟩)) := by
  constructor
  · intro hb
    have hc : ShouldBindJSONCreate body = none := by
      rcases hb with rfl | ⟨d, rfl | rfl⟩ <;> rfl
    have hu : ShouldBindJSONUpdate body = none := by
      rcases hb with rfl | ⟨d, rfl | rfl⟩ <;> rfl
    refine ⟨by simp only [CreateTodo, hc], ?_⟩
    unfold UpdateTodo
    cases Atoi param with
    | none => exact ⟨_, rfl⟩
    | some id => exact ⟨"Invalid request data", by simp only [hu]⟩
  · intro hp
    simp only [GetTodo, UpdateTodo, DeleteTodo, CompleteTodo, UncompleteTodo, hp, and_self]

theorem invalid_input_rejected_witness :
    Atoi "abc" = none ∧ Atoi "invalid" = none ∧
    (CreateTodo sampleDB 40 none (.object (some "") (some "Test Description"))
        = (sampleDB, ⟨StatusBadRequest, errorBody "Invalid request data"⟩) ∧
      ∃ m, UpdateTodo sampleDB 40 none none "1" (.object (some "") (some "Test Description"))
        = (sampleDB, ⟨StatusBadRequest, errorBody m⟩)) ∧
    (GetTodo sampleDB none "invalid"
        = (sampleDB, ⟨StatusBadRequest, errorBody "Invalid todo ID"⟩) ∧
      UpdateTodo sampleDB 40 none none "invalid" (.object (some "t") none)
        = (sampleDB, ⟨StatusBadRequest, errorBody "Invalid todo ID"⟩) ∧
      DeleteTodo sampleDB none none "invalid"
        = (sampleDB, ⟨StatusBadRequest, errorBody "Invalid todo ID"⟩) ∧
      CompleteTodo sampleDB 40 none none "invalid"
        = (sampleDB, ⟨StatusBadRequest, errorBody "Invalid todo ID"⟩) ∧
      UncompleteTodo sampleDB 40 none none "invalid"
        = (sampleDB, ⟨StatusBadRequest, errorBody "Invalid todo ID"⟩)) :=
  ⟨by decide, by decide,
    (invalid_input_rejected sampleDB 40 none none "1"
      (.object (some "") (some "Test Description"))).1 (Or.inr ⟨_, Or.inr rfl⟩),
    (invalid_input_rejected sampleDB 40 none none "invalid" (.object (some "t") none)).2
      (by decide)⟩

/-! ## Titles of persisted records -/

theorem ShouldBindJSONCreate_title (body : JsonBody) (req : CreateTodoRequest)
    (h : ShouldBindJSONCreate body = some req) : req.Title ≠ "" := by
  unfold ShouldBindJSONCreate at h
  cases body with
  | malformed => simp at h
  | object title description =>
    by_cases ht : title.getD "" = ""
    · simp [ht] at h
    · simp only [ht, if_false, Option.some.injEq] at h
      rw [← h]
      exact ht

theorem ShouldBindJSONUpdate_title (body : JsonBody) (req : UpdateTodoRequest)
    (h : ShouldBindJSONUpdate body = some req) : req.Title ≠ "" := by
  unfold ShouldBindJSONUpdate at h
  cases body with
  | malformed => simp at h
  | object title description =>
    by_cases ht : title.getD "" = ""
    · simp [ht] at h
    · simp only [ht, if_false, Option.some.injEq] at h
      rw [← h]
      exact ht

theorem Create_titles (db : DB) (now : Time) (fault : Option String) (req : CreateTodoRequest)
    (hreq : req.Title ≠ "") (h : ∀ r ∈ db.rows, r.Title ≠ "") :
    ∀ r ∈ (Create db now fault req).1.rows, r.Title ≠ "" := by
  unfold Create execInsert
  cases fault with
  | some msg => exact h
  | none =>
    by_cases hfull : db.highWater ≥ maxRowid
    · simpa [hfull] using h
    · simp only [hfull, if_false]
      intro r hr
      rcases List.mem_append.mp hr with hm | hm
      · exact h r hm
      · rw [List.mem_singleton.mp hm]
        exact hreq

theorem Update_titles (db : DB) (now : Time) (execFault queryFault : Option String) (id : Int)
    (req : UpdateTodoRequest) (hreq : req.Title ≠ "") (h : ∀ r ∈ db.rows, r.Title ≠ "") :
    ∀ r ∈ (Update db now execFault queryFault id req).1.rows, r.Title ≠ "" := by
  unfold Update execUpdate
  cases execFault with
  | some msg => exact h
  | none =>
    intro r hr
    obtain ⟨a, ha, rfl⟩ := List.mem_map.mp hr
    by_cases hid : a.ID = id
    · simpa [hid] using hreq
    · simpa [hid] using h a ha

theorem ToggleComplete_titles (db : DB) (now : Time) (execFault queryFault : Option String)
    (id : Int) (b : Bool) (h : ∀ r ∈ db.rows, r.Title ≠ "") :
    ∀ r ∈ (ToggleComplete db now execFault queryFault id b).1.rows, r.Title ≠ "" := by
  unfold ToggleComplete execSetCompleted
  cases execFault with
  | some msg => exact h
  | none =>
    intro r hr
    obtain ⟨a, ha, rfl⟩ := List.mem_map.mp hr
    by_cases hid : a.ID = id
    · simpa [hid] using h a ha
    · simpa [hid] using h a ha

theorem Delete_titles (db : DB) (fault : Option String) (id : Int)
    (h : ∀ r ∈ db.rows, r.Title ≠ "") :
    ∀ r ∈ (Delete db fault id).1.rows, r.Title ≠ "" := by
  unfold Delete execDelete
  cases fault with
  | some msg => exact h
  | none => exact fun r hr => h r (List.mem_of_mem_filter hr)

theorem handle_titles (req : Request) (db : DB) (h : ∀ r ∈ db.rows, r.Title ≠ "") :
    ∀ r ∈ (req.handle db).1.rows, r.Title ≠ "" := by
  cases req with
  | getTodos queryFault rowsFault =>
    simp only [Request.handle, GetTodos]
    split <;> exact h
  | getTodo fault param =>
    simp only [Request.handle, GetTodo]
    split
    · exact h
    · split <;> exact h
  | createTodo now fault body =>
    simp only [Request.handle, CreateTodo]
    cases hb : ShouldBindJSONCreate body with
    | none => exact h
    | some r0 =>
      have := Create_titles db now fault r0 (ShouldBindJSONCreate_title body r0 hb) h
      simp only
      split <;> rename_i heq <;> simpa [heq] using this
  | updateTodo now execFault queryFault param body =>
    simp only [Request.handle, UpdateTodo]
    cases Atoi param with
    | none => exact h
    | some id =>
      cases hb : ShouldBindJSONUpdate body with
      | none => exact h
      | some r0 =>
        have := Update_titles db now execFault queryFault id r0
          (ShouldBindJSONUpdate_title body r0 hb) h
        simp only
        split <;> rename_i heq <;> simpa [heq] using this
  | deleteTodo lookupFault deleteFault param =>
    simp only [Request.handle, DeleteTodo]
    cases Atoi param with
    | none => exact h
    | some id =>
      simp only
      split
      · exact h
      · have := Delete_titles db deleteFault id h
        split <;> rename_i heq <;> simpa [heq] using this
  | completeTodo now execFault queryFault param =>
    simp only [Request.handle, CompleteTodo]
    cases Atoi param with
    | none => exact h
    | some id =>
      have := ToggleComplete_titles db now execFault queryFault id true h
      simp only
      split <;> rename_i heq <;> simpa [heq] using this
  | uncompleteTodo now execFault queryFault param =>
    simp only [Request.handle, UncompleteTodo]
    cases Atoi param with
    | none => exact h
    | some id =>
      have := ToggleComplete_titles db now execFault queryFault id false h
      simp only
      split <;> rename_i heq <;> simpa [heq] using this

theorem serve_titles (reqs : List Request) (db : DB) (h : ∀ r ∈ db.rows, r.Title ≠ "") :
    ∀ r ∈ (serve reqs db).rows, r.Title ≠ "" := by
  induction reqs generalizing db with
  | nil => exact h
  | cons req rest ih => exact ih _ (handle_titles req db h)

/-- C11: in every store state reached from the empty store by any sequence of
handler requests (`CreateTodo`, `UpdateTodo`, `DeleteTodo`, `CompleteTodo`,
`UncompleteTodo`, `GetTodo`, `GetTodos`, with any bodies, id segments, clock
readings and storage faults), every persisted record has a non-empty title. -/
theorem title_never_empty (reqs : List Request) (r : Todo)
    (hr : r ∈ (serve reqs emptyDB).rows) : r.Title ≠ "" :=
  serve_titles reqs emptyDB (fun _ h => by cases h) r hr

theorem title_never_empty_witness :
    (serve sampleRequests emptyDB).rows = [⟨1, "Buy oat milk", "", false, 10, 12⟩] ∧
    (⟨1, "Buy oat milk", "", false, 10, 12⟩ : Todo).Title ≠ "" :=
  ⟨by decide, title_never_empty sampleRequests ⟨1, "Buy oat milk", "", false, 10, 12⟩ (by decide)⟩

/-! ## `updated_at` and the clock -/

theorem map_where_created (rows : List Todo) (id : Int) (g : Todo → Todo) (now : Time)
    (T : List Time) (hg : ∀ r, (g r).CreatedAt = r.CreatedAt ∧ (g r).UpdatedAt = now)
    (h : ∀ r ∈ rows, r.CreatedAt ≤ r.UpdatedAt ∧ r.CreatedAt ≤ now ∧ ∀ t ∈ T, r.CreatedAt ≤ t) :
    ∀ r ∈ rows.map (fun r => if r.ID = id then g r else r),
      r.CreatedAt ≤ r.UpdatedAt ∧ ∀ t ∈ T, r.CreatedAt ≤ t := by
  intro r hr
  obtain ⟨a, ha, rfl⟩ := List.mem_map.mp hr
  obtain ⟨h1, h2, h3⟩ := h a ha
  by_cases hid : a.ID = id
  · simp only [hid, if_true, (hg a).1, (hg a).2]
    exact ⟨h2, h3⟩
  · simp only [hid, if_false]
    exact ⟨h1, h3⟩

theorem run_created_le (op : StoreOp) (rest : List StoreOp) (db : DB)
    (hc : (clocks (op :: rest)).Pairwise (· ≤ ·))
    (h : ∀ r ∈ db.rows, r.CreatedAt ≤ r.UpdatedAt ∧ ∀ t ∈ clocks (op :: rest), r.CreatedAt ≤ t) :
    (clocks rest).Pairwise (· ≤ ·) ∧
    ∀ r ∈ (op.run db).rows, r.CreatedAt ≤ r.UpdatedAt ∧ ∀ t ∈ clocks rest, r.CreatedAt ≤ t := by
  cases op with
  | create now fault req =>
    have hcl : clocks (.create now fault req :: rest) = now :: clocks rest := rfl
    rw [hcl] at hc h
    obtain ⟨hhead, htail⟩ := List.pairwise_cons.mp hc
    have hold : ∀ r ∈ db.rows, r.CreatedAt ≤ r.UpdatedAt ∧ ∀ t ∈ clocks rest, r.CreatedAt ≤ t :=
      fun r hr => ⟨(h r hr).1, fun t ht => (h r hr).2 t (List.mem_cons_of_mem _ ht)⟩
    refine ⟨htail, ?_⟩
    simp only [StoreOp.run, Create, execInsert]
    cases fault with
    | some msg => exact hold
    | none =>
      by_cases hfull : db.highWater ≥ maxRowid
      · simpa [hfull] using hold
      · simp only [hfull, if_false]
        intro r hr
        rcases List.mem_append.mp hr with hm | hm
        · exact hold r hm
        · rw [List.mem_singleton.mp hm]
          exact ⟨le_refl _, hhead⟩
  | update now execFault queryFault id req =>
    have hcl : clocks (.update now execFault queryFault id req :: rest) = now :: clocks rest := rfl
    rw [hcl] at hc h
    obtain ⟨_, htail⟩ := List.pairwise_cons.mp hc
    refine ⟨htail, ?_⟩
    simp only [StoreOp.run, Update, execUpdate]
    cases execFault with
    | some msg =>
      exact fun r hr => ⟨(h r hr).1, fun t ht => (h r hr).2 t (List.mem_cons_of_mem _ ht)⟩
    | none =>
      exact map_where_created db.rows id
        (fun r => { r with Title := req.Title, Description := req.Description, UpdatedAt := now })
        now (clocks rest) (fun _ => ⟨rfl, rfl⟩)
        (fun r hr => ⟨(h r hr).1, (h r hr).2 now (List.mem_cons_self _ _),
          fun t ht => (h r hr).2 t (List.mem_cons_of_mem _ ht)⟩)
  | delete fault id =>
    have hcl : clocks (.delete fault id :: rest) = clocks rest := rfl
    rw [hcl] at hc h
    refine ⟨hc, ?_⟩
    simp only [StoreOp.run, Delete, execDelete]
    cases fault with
    | some msg => exact h
    | none => exact fun r hr => h r (List.mem_of_mem_filter hr)
  | toggle now execFault queryFault id completed =>
    have hcl : clocks (.toggle now execFault queryFault id completed :: rest)
        = now :: clocks rest := rfl
    rw [hcl] at hc h
    obtain ⟨_, htail⟩ := List.pairwise_cons.mp hc
    refine ⟨htail, ?_⟩
    simp only [StoreOp.run, ToggleComplete, execSetCompleted]
    cases execFault with
    | some msg =>
      exact fun r hr => ⟨(h r hr).1, fun t ht => (h r hr).2 t (List.mem_cons_of_mem _ ht)⟩
    | none =>
      exact map_where_created db.rows id
        (fun r => { r with Completed := completed, UpdatedAt := now })
        now (clocks rest) (fun _ => ⟨rfl, rfl⟩)
        (fun r hr => ⟨(h r hr).1, (h r hr).2 now (List.mem_cons_self _ _),
          fun t ht => (h r hr).2 t (List.mem_cons_of_mem _ ht)⟩)

theorem runOps_created_le (ops : List StoreOp) (db : DB)
    (hc : (clocks ops).Pairwise (· ≤ ·))
    (h : ∀ r ∈ db.rows, r.CreatedAt ≤ r.UpdatedAt ∧ ∀ t ∈ clocks ops, r.CreatedAt ≤ t) :
    ∀ r ∈ (runOps ops db).rows, r.CreatedAt ≤ r.UpdatedAt := by
  induction ops generalizing db with
  | nil => exact fun r hr => (h r hr).1
  | cons op rest ih =>
    obtain ⟨h1, h2⟩ := run_created_le op rest db hc h
    exact ih (op.run db) h1 h2

/-- C12 (the code at the failing input): a record is created when the clock
reads 100 and `Update`, or `ToggleComplete`, is called while the clock still
reads 100: both succeed and return `updated_at = 100`, which is not strictly
later than the `updated_at = 100` that `Create` returned.  The same happens
on a stored record with `updated_at = 25` when the clock reads 25; and a
record created when the clock reads 100 and updated when it reads 50 is stored
with `updated_at = 50`, earlier than its `created_at`. -/
theorem updated_at_not_strictly_later :
    Create emptyDB 100 none ⟨"Original Title", "Original Description"⟩
      = (⟨[⟨1, "Original Title", "Original Description", false, 100, 100⟩], 1⟩,
          .ok ⟨1, "Original Title", "Original Description", false, 100, 100⟩) ∧
    (Update ⟨[⟨1, "Original Title", "Original Description", false, 100, 100⟩], 1⟩ 100 none none 1
        ⟨"Updated Title", "Updated Description"⟩).2
      = .ok ⟨1, "Updated Title", "Updated Description", false, 100, 100⟩ ∧
    (ToggleComplete ⟨[⟨1, "Original Title", "Original Description", false, 100, 100⟩], 1⟩
        100 none none 1 true).2
      = .ok ⟨1, "Original Title", "Original Description", true, 100, 100⟩ ∧
    ¬ ((⟨1, "Original Title", "Original Description", false, 100, 100⟩ : Todo).UpdatedAt
        < (⟨1, "Updated Title", "Updated Description", false, 100, 100⟩ : Todo).UpdatedAt) ∧
    sampleDB.lookup 3 = some ⟨3, "Write report", "", true, 20, 25⟩ ∧
    (Update sampleDB 25 none none 3 ⟨"Report", ""⟩).2 = .ok ⟨3, "Report", "", true, 20, 25⟩ ∧
    (ToggleComplete sampleDB 25 none none 3 true).2
      = .ok ⟨3, "Write report", "", true, 20, 25⟩ ∧
    ¬ ((⟨3, "Write report", "", true, 20, 25⟩ : Todo).UpdatedAt
        < (⟨3, "Report", "", true, 20, 25⟩ : Todo).UpdatedAt) ∧
    (runOps [.create 100 none ⟨"a", ""⟩, .update 50 none none 1 ⟨"b", ""⟩] emptyDB).rows
      = [⟨1, "b", "", false, 100, 50⟩] ∧
    ¬ ((⟨1, "b", "", false, 100, 50⟩ : Todo).CreatedAt
        ≤ (⟨1, "b", "", false, 100, 50⟩ : Todo).UpdatedAt) :=
  ⟨rfl, rfl, rfl, by decide, by decide, rfl, rfl, by decide, by decide, by decide⟩

/-- What the store does guarantee about `updated_at`: for every store state
and every id whose record `old` is in it, `Update` (absent a storage fault)
returns a record whose `updated_at` is the clock reading of the call, so it is
strictly later than `old.updated_at` exactly when that reading is; likewise
`ToggleComplete id true` and a following `ToggleComplete id false` each return
the clock reading of their call; and after any sequence of store calls on the
empty store whose clock readings never decrease, every record has
`updated_at >= created_at`. -/
theorem updated_at_is_clock_reading (db : DB) (now now2 : Time) (id : Int)
    (req : UpdateTodoRequest) (old : Todo) (h : db.lookup id = some old) :
    (∃ db' new, Update db now none none id req = (db', .ok new) ∧ new.UpdatedAt = now ∧
      (old.UpdatedAt < new.UpdatedAt ↔ old.UpdatedAt < now)) ∧
    (∃ db' t1 db'' t2,
      ToggleComplete db now none none id true = (db', .ok t1) ∧ t1.UpdatedAt = now ∧
      (old.UpdatedAt < t1.UpdatedAt ↔ old.UpdatedAt < now) ∧
      ToggleComplete db' now2 none none id false = (db'', .ok t2) ∧ t2.UpdatedAt = now2 ∧
      (t1.UpdatedAt < t2.UpdatedAt ↔ now < now2)) ∧
    (∀ ops, (clocks ops).Pairwise (· ≤ ·) →
      ∀ r ∈ (runOps ops emptyDB).rows, r.CreatedAt ≤ r.UpdatedAt) := by
  obtain ⟨d1, u1, _⟩ := Update_found db now id req old h
  obtain ⟨d2, g1, g2, _⟩ := ToggleComplete_found db now id true old h
  obtain ⟨d3, k1, _⟩ := ToggleComplete_found d2 now2 id false _ g2
  refine ⟨⟨d1, _, u1, rfl, Iff.rfl⟩, ⟨d2, _, d3, _, g1, rfl, Iff.rfl, k1, rfl, Iff.rfl⟩, ?_⟩
  intro ops hc
  exact runOps_created_le ops emptyDB hc (fun _ hr => by cases hr)

theorem updated_at_is_clock_reading_witness :
    sampleDB.lookup 3 = some ⟨3, "Write report", "", true, 20, 25⟩ ∧
    (clocks sampleOps).Pairwise (· ≤ ·) ∧
    (∀ r ∈ (runOps sampleOps emptyDB).rows, r.CreatedAt ≤ r.UpdatedAt) ∧
    ((∃ db' new, Update sampleDB 40 none none 3 ⟨"Report", ""⟩ = (db', .ok new) ∧
      new.UpdatedAt = 40 ∧
      ((⟨3, "Write report", "", true, 20, 25⟩ : Todo).UpdatedAt < new.UpdatedAt ↔
        (⟨3, "Write report", "", true, 20, 25⟩ : Todo).UpdatedAt < 40)) ∧
    (∃ db' t1 db'' t2,
      ToggleComplete sampleDB 40 none none 3 true = (db', .ok t1) ∧ t1.UpdatedAt = 40 ∧
      ((⟨3, "Write report", "", true, 20, 25⟩ : Todo).UpdatedAt < t1.UpdatedAt ↔
        (⟨3, "Write report", "", true, 20, 25⟩ : Todo).UpdatedAt < 40) ∧
      ToggleComplete db' 41 none none 3 false = (db'', .ok t2) ∧ t2.UpdatedAt = 41 ∧
      (t1.UpdatedAt < t2.UpdatedAt ↔ 40 < 41)) ∧
    (∀ ops, (clocks ops).Pairwise (· ≤ ·) →
      ∀ r ∈ (runOps ops emptyDB).rows, r.CreatedAt ≤ r.UpdatedAt)) :=
  ⟨by decide, by decide,
    (updated_at_is_clock_reading sampleDB 40 41 3 ⟨"Report", ""⟩
      ⟨3, "Write report", "", true, 20, 25⟩ (by decide)).2.2 sampleOps (by decide),
    updated_at_is_clock_reading sampleDB 40 41 3 ⟨"Report", ""⟩
      ⟨3, "Write report", "", true, 20, 25⟩ (by decide)⟩

/-! ## `GetTodos` and the body it writes -/

/-- C13 (the code at the failing input): on the empty store `GetAll` succeeds
with the `nil` slice, `GetTodos` answers 200 with that slice, and the body
written for it is `null`, not the empty array; on a store with records the
body is the array of the records in `GetAll` order. -/
theorem GetTodos_empty_store_null :
    GetAll emptyDB none none = .ok .nil ∧
    GetTodos emptyDB none none = (emptyDB, ⟨StatusOK, .todos .nil⟩) ∧
    marshal (GetTodos emptyDB none none).2.body = .null ∧
    marshal (GetTodos emptyDB none none).2.body ≠ .arr [] ∧
    (GetTodos sampleDB none none).2.status = StatusOK ∧
    marshal (GetTodos sampleDB none none).2.body
      = .arr [Todo.toJSON ⟨3, "Write report", "", true, 20, 25⟩,
              Todo.toJSON ⟨1, "Buy milk", "2 litres", false, 10, 10⟩] :=
  ⟨rfl, rfl, rfl, (fun h => by cases h), rfl, rfl⟩

end TodoApi
